import Mathlib

/-!
Verification of the dbot summarizer scripts (`summarize_to_forum.py`,
`summarize_github_action.py`, `translate_channel_summary.py`) against their
natural-language specification.

Python strings are modelled as `List Char` (`PyStr`), Python sets as lists of
their members in iteration order, and every external call (HTTP, scraping,
LLM generation, the clock) as an oracle value supplied to the step function.
Each definition is a direct transcription of the named Python function.
-/

/-- Python `str` modelled as a list of characters (`len` = `List.length`). -/
abbrev PyStr := List Char

/-- `txt s` is the `PyStr` of a Lean string literal. -/
def txt (s : String) : PyStr := s.data

/-- Characters matched by Python's `\s` class (ASCII whitespace). -/
def pyIsSpace (c : Char) : Bool :=
  c = ' ' || c = '\t' || c = '\n' || c = '\r' || c = Char.ofNat 11 || c = Char.ofNat 12

/-- Python `str.strip()`: drop leading and trailing whitespace. -/
def pyStrip (s : PyStr) : PyStr :=
  ((s.dropWhile pyIsSpace).reverse.dropWhile pyIsSpace).reverse

/-- Helper for `pySplitLines`: accumulate the current (reversed) line. -/
def pySplitLinesAux : PyStr → PyStr → List PyStr
  | acc, [] => [acc.reverse]
  | acc, c :: cs =>
    if c = '\n' then acc.reverse :: pySplitLinesAux [] cs
    else pySplitLinesAux (c :: acc) cs

/-- Python `content.split("\n")` (empty parts preserved, `"".split` = `[""]`). -/
def pySplitLines (s : PyStr) : List PyStr := pySplitLinesAux [] s

/-- Does the list start with the given pattern? -/
def listStartsWith : List Char → List Char → Bool
  | [], _ => true
  | _ :: _, [] => false
  | p :: ps, c :: cs => p = c && listStartsWith ps cs

/-- Python `sub in s` for strings: contiguous substring test. -/
def pyContains (sub : PyStr) : PyStr → Bool
  | [] => listStartsWith sub []
  | c :: rest => listStartsWith sub (c :: rest) || pyContains sub rest

/-! ## URL extraction (`extract_urls_from_text`, regex `(https?://[^\s<>\"']+)`) -/

/-- Characters admitted by the forum scripts' URL character class
`[^\s<>\"']` (anything but whitespace, angle brackets, and quotes). -/
def urlCharForum (c : Char) : Bool :=
  !(pyIsSpace c || c = '<' || c = '>' || c = Char.ofNat 34 || c = Char.ofNat 39)

/-- Characters admitted by `summarize_github_action.py`'s class `[^\s]`. -/
def urlCharGh (c : Char) : Bool := !(pyIsSpace c)

/-- Match the regex prefix `https?://` at the head of the list (greedy on the
optional `s`), returning the consumed scheme and the remainder. -/
def matchScheme (l : List Char) : Option (PyStr × List Char) :=
  if listStartsWith (txt "https://") l then some (txt "https://", l.drop 8)
  else if listStartsWith (txt "http://") l then some (txt "http://", l.drop 7)
  else none

/-- Fueled left-to-right scan implementing `re.findall` for the pattern
`https?://C+` with character class `C`; scanning resumes after each match. -/
def findallUrlsAux (urlChar : Char → Bool) : Nat → List Char → List PyStr
  | 0, _ => []
  | _ + 1, [] => []
  | fuel + 1, c :: rest =>
    match matchScheme (c :: rest) with
    | some (scheme, after) =>
      let run := after.takeWhile urlChar
      if run = [] then findallUrlsAux urlChar fuel rest
      else (scheme ++ run) :: findallUrlsAux urlChar fuel (after.drop run.length)
    | none => findallUrlsAux urlChar fuel rest

/-- `extract_urls_from_text` of the forum/translate scripts. -/
def extract_urls_from_text (s : PyStr) : List PyStr :=
  findallUrlsAux urlCharForum s.length s

/-- The inline `re.findall(r"(https?://[^\s]+)", content)` of
`summarize_github_action.py` (`process_channel`). -/
def findallUrlsGh (s : PyStr) : List PyStr :=
  findallUrlsAux urlCharGh s.length s

/-- An embed's `url` field (`none` when the key is absent). -/
abbrev Embed := Option PyStr

/-- The urls appended from embeds: `if embed.get("url"): urls.append(...)`
keeps exactly the present-and-truthy (non-empty) ones, in order. -/
def truthyEmbedUrls (embeds : List Embed) : List PyStr :=
  embeds.filterMap fun e =>
    match e with
    | some u => if u = [] then none else some u
    | none => none

/-- Candidate URL selected by `summarize_to_forum.py` / `translate_channel_summary.py`:
body matches first, then all truthy embed urls are appended, and only index 0
is processed. -/
def candidateUrl (content : PyStr) (embeds : List Embed) : Option PyStr :=
  (extract_urls_from_text content ++ truthyEmbedUrls embeds).head?

/-- Candidate URL selected by `summarize_github_action.py` (`process_channel`):
embed urls are consulted only when the body has no regex match and the embed
list is non-empty. -/
def candidateUrlGh (content : PyStr) (embeds : List Embed) : Option PyStr :=
  let urls := findallUrlsGh content
  let urls := if urls = [] ∧ embeds ≠ [] then urls ++ truthyEmbedUrls embeds else urls
  urls.head?

/-- Spec-side description: the `url` field of the first embed that carries a
truthy one. -/
def firstTruthyEmbed : List Embed → Option PyStr
  | [] => none
  | some u :: rest => if u = [] then firstTruthyEmbed rest else some u
  | none :: rest => firstTruthyEmbed rest

/-! ## Message sending and chunking (`send_discord_message`) -/

/-- `MAX_MESSAGE_LENGTH = 2000` (also the literal `max_len = 2000` of
`summarize_github_action.py`). -/
def MAX_MESSAGE_LENGTH : Nat := 2000

/-- The line-accumulating split loop of `send_discord_message`
(`summarize_to_forum.py` lines 264-272, identical in
`translate_channel_summary.py`): flush the buffer when appending the next
line plus newline would exceed `maxLen`; the final buffer is `strip()`ped. -/
def chunkLoopForum (maxLen : Nat) : List PyStr → PyStr → List PyStr
  | [], current => if current = [] then [] else [pyStrip current]
  | l :: ls, current =>
    if maxLen < current.length + l.length + 1 then
      current :: chunkLoopForum maxLen ls (l ++ txt "\n")
    else
      chunkLoopForum maxLen ls (current ++ l ++ txt "\n")

/-- The chunks that `send_discord_message` POSTs for a given `content`:
one message if it fits, otherwise the split loop's output. -/
def emittedChunksForum (content : PyStr) : List PyStr :=
  if content.length ≤ MAX_MESSAGE_LENGTH then [content]
  else chunkLoopForum MAX_MESSAGE_LENGTH (pySplitLines content) []

/-- Send a list of chunks in order through a per-call outcome oracle,
stopping at the first failure (the `for`/`break` loop of
`send_discord_message`); returns (overall success, number of POSTs made). -/
def sendSeq (ok : Nat → Bool) : Nat → List PyStr → Bool × Nat
  | _, [] => (true, 0)
  | i, _ :: cs =>
    if ok i then
      let r := sendSeq ok (i + 1) cs
      (r.1, r.2 + 1)
    else (false, 1)

/-- `send_discord_message(channel, content)` with POST outcomes abstracted by
the oracle `ok`: returns (success reported to the caller, POSTs issued). -/
def sendDiscordMessageModel (ok : Nat → Bool) (content : PyStr) : Bool × Nat :=
  sendSeq ok 0 (emittedChunksForum content)

/-! ## Summary formatting (`format_summaries`) -/

/-- Python `[summary[i : i + n] for i in range(0, len(summary), n)]` for a
positive step `n`: consecutive slices of size `n` (last one shorter). -/
def chunksOfTxt (n : Nat) (l : PyStr) : List PyStr :=
  if h : l = [] ∨ n = 0 then []
  else l.take n :: chunksOfTxt n (l.drop n)
termination_by l.length
decreasing_by
  push_neg at h
  obtain ⟨hl, hn⟩ := h
  have : 0 < l.length := List.length_pos.mpr hl
  simp [List.length_drop]
  omega

/-- The body of `format_summaries`' loop over `summaries_dict.items()`,
carrying (chunks so far, current accumulation).  `Except.error ()` models the
`ValueError` that `range(0, len, 0)` raises when `remaining_len == 0`;
`remaining_len < 0` makes `range` empty, so the entry contributes nothing and
the accumulator is reset. -/
def fsLoop (maxLength : Nat) :
    List (PyStr × PyStr × PyStr) → List PyStr → PyStr → Except Unit (List PyStr × PyStr)
  | [], chunks, current => .ok (chunks, current)
  | (url, summary, channelName) :: rest, chunks, current =>
    let url_line := txt "**URL (" ++ channelName ++ txt "):** " ++ url ++ txt "\n**Summary:**\n"
    let separator := txt "\n\n---\n\n"
    let entry := url_line ++ summary ++ separator
    if maxLength < entry.length then
      let remaining : Int := (maxLength : Int) - url_line.length - separator.length
      if remaining = 0 then .error ()
      else
        let parts := if remaining < 0 then [] else chunksOfTxt remaining.toNat summary
        let partChunks := parts.enum.map fun p =>
          pyStrip (url_line ++ p.2 ++
            (if p.1 < parts.length - 1 then txt "\n...(continued)\n" ++ separator
             else txt "\n" ++ separator))
        fsLoop maxLength rest (chunks ++ partChunks) []
    else if maxLength < current.length + entry.length then
      fsLoop maxLength rest (chunks ++ [pyStrip current]) entry
    else
      fsLoop maxLength rest chunks (current ++ entry)

/-- `format_summaries(summaries_dict, max_length)`, the dict modelled as the
list of its `(url, (summary, channel_name))` items in iteration order. -/
def format_summaries (entries : List (PyStr × PyStr × PyStr))
    (maxLength : Nat := MAX_MESSAGE_LENGTH) : Except Unit (List PyStr) :=
  match fsLoop maxLength entries [] [] with
  | .error e => .error e
  | .ok (chunks, current) =>
    .ok (if current = [] then chunks else chunks ++ [pyStrip current])

/-! ## Thread creation (`create_daily_thread`) -/

/-- The initial-message content actually placed in the create-thread payload:
`create_daily_thread` truncates over-long content to
`MAX_MESSAGE_LENGTH - 10` characters plus `"..."`. -/
def createDailyThreadContent (c : PyStr) : PyStr :=
  if MAX_MESSAGE_LENGTH < c.length then c.take (MAX_MESSAGE_LENGTH - 10) ++ txt "..."
  else c

/-! ## Persistence (`load_processed_urls`) -/

/-- JSON values as produced by Python's `json.load`. -/
inductive PyJson where
  | jnull : PyJson
  | jbool : Bool → PyJson
  | jnum : Int → PyJson
  | jstr : PyStr → PyJson
  | jarr : List PyJson → PyJson
  | jobj : List (PyStr × PyJson) → PyJson

/-- Observable state of the processed-URL file as seen by
`load_processed_urls`: absent, unreadable (`IOError` on open/read), invalid
JSON (`json.JSONDecodeError`), or a parsed JSON value. -/
inductive UrlFileState where
  | missing : UrlFileState
  | ioError : UrlFileState
  | badJson : UrlFileState
  | parsed : PyJson → UrlFileState

/-- Whether a JSON value is hashable in Python (lists and dicts are not). -/
def pyHashable : PyJson → Bool
  | .jarr _ => false
  | .jobj _ => false
  | _ => true

/-- `load_processed_urls`: the Python set is modelled as the list of its
members in iteration order (duplicates immaterial).  `Except.error ()` models
an uncaught exception: `len(urls)` raises `TypeError` on a number, boolean or
null, and `set(urls)` raises `TypeError` on an array with unhashable
elements; only `JSONDecodeError` and `IOError` are caught by the code. -/
def load_processed_urls : UrlFileState → Except Unit (List PyJson)
  | .missing => .ok []
  | .ioError => .ok []
  | .badJson => .ok []
  | .parsed v =>
    match v with
    | .jstr s => .ok (s.map fun c => PyJson.jstr [c])
    | .jarr xs => if xs.all pyHashable then .ok xs else .error ()
    | .jobj kvs => .ok (kvs.map fun kv => PyJson.jstr kv.1)
    | _ => .error ()

/-! ## Rate limiting and retries (`handle_rate_limit`, `post_chunk`) -/

/-- Outcome of one HTTP round trip as the retry loops observe it: success,
HTTP 429 carrying an optional `retry_after` body field, a
`requests.exceptions.RequestException`, or any other exception. -/
inductive HttpResp where
  | ok : HttpResp
  | rateLimited : Option ℚ → HttpResp
  | reqError : HttpResp
  | unexpected : HttpResp

/-- The sleep performed by `handle_rate_limit`:
`response.json().get("retry_after", RATE_LIMIT_SLEEP)` with
`RATE_LIMIT_SLEEP = 1`. -/
def rateLimitSleep (retryAfter : Option ℚ) : ℚ := retryAfter.getD 1

/-- `post_chunk`'s `while True` loop in `summarize_to_forum.py` (identical in
`summarize_github_action.py`) applied to a finite trace of responses:
`ok` returns `True`, 429 sleeps `retry_after` and retries, a
`RequestException` sleeps 2 seconds and retries, any other exception returns
`False`.  Result `none` means the trace was exhausted with the loop still
retrying; the second component lists the sleeps performed. -/
def postChunkForum : List HttpResp → Option Bool × List ℚ
  | [] => (none, [])
  | .ok :: _ => (some true, [])
  | .rateLimited ra :: rest =>
    let r := postChunkForum rest
    (r.1, rateLimitSleep ra :: r.2)
  | .reqError :: rest =>
    let r := postChunkForum rest
    (r.1, 2 :: r.2)
  | .unexpected :: _ => (some false, [])

/-- `post_chunk`'s loop in `translate_channel_summary.py`: identical except
that a `RequestException` returns `False` immediately (no retry). -/
def postChunkTranslate : List HttpResp → Option Bool × List ℚ
  | [] => (none, [])
  | .ok :: _ => (some true, [])
  | .rateLimited ra :: rest =>
    let r := postChunkTranslate rest
    (r.1, rateLimitSleep ra :: r.2)
  | .reqError :: _ => (some false, [])
  | .unexpected :: _ => (some false, [])

/-- The GET loops (`get_channel_messages`, `get_guild_channels`, ...): 429
sleeps and retries, any exception returns a failure sentinel (`None`).
`some true` = the caller observed one successful response. -/
def getLoopForum : List HttpResp → Option Bool × List ℚ
  | [] => (none, [])
  | .ok :: _ => (some true, [])
  | .rateLimited ra :: rest =>
    let r := getLoopForum rest
    (r.1, rateLimitSleep ra :: r.2)
  | .reqError :: _ => (some false, [])
  | .unexpected :: _ => (some false, [])

/-! ## The forum summarizer run (`summarize_to_forum.main`)

The per-message body of `main`'s processing loop, with every external call
abstracted by a per-message oracle.  State mutated across messages:
`historical_urls`, `target_thread_id`, `processed_urls_status`. -/

/-- In-run status tags (`processed_urls_status` values). -/
inductive UrlStatus where
  | duplicateHistorical
  | skippedXcom
  | failedScrape
  | summarized
  | summarizedPosted
  | postFailedChunk
  | postFailedThreadCreate
  | postFailedFormatting
  | postFailedUnknown
  | failedEmptySummary
  | failedSummary
deriving DecidableEq, Repr

/-- The run-level mutable state of `main`. -/
structure RunState where
  historical : List PyStr
  targetThreadId : Option Nat
  status : List (PyStr × UrlStatus)
deriving DecidableEq, Repr

/-- `processed_urls_status[u]` (insertion at the head shadows older entries). -/
def statusOf (s : RunState) (u : PyStr) : Option UrlStatus :=
  (s.status.find? fun p => decide (p.1 = u)).map Prod.snd

/-- `processed_urls_status[u] = st`. -/
def setStatus (s : RunState) (u : PyStr) (st : UrlStatus) : RunState :=
  { s with status := (u, st) :: s.status }

/-- Outcomes of the external calls made while processing one message. -/
structure ForumOracle where
  genYt : Option PyStr
  scrape : Option PyStr
  gen : Option PyStr
  findThread : Option Nat
  createThread : Option Nat
  sendOk : Nat → Bool

/-- Externally visible activity of one message-processing step: counts of
`scrape_web_page` / `generate`(`_yt`) / `find_daily_thread` /
`create_daily_thread` / `send_message_to_thread` calls, the URL recorded as
posted (if any), whether some chunk send returned `False`, and whether the
step aborted the run with an uncaught exception. -/
structure StepOut where
  scrapes : Nat
  gens : Nat
  finds : Nat
  creates : Nat
  sends : Nat
  posted : Option PyStr
  sendFailed : Bool
  aborted : Bool
deriving DecidableEq, Repr

/-- A step that performed no external activity. -/
def zeroOut : StepOut := ⟨0, 0, 0, 0, 0, none, false, false⟩

/-- One message event: the source channel's name (used in formatting), the
message body, and its embeds. -/
structure ForumMsg where
  channelName : PyStr
  content : PyStr
  embeds : List Embed
deriving Repr

/-- Lines 574-576: on `post_successful`, set status `SUMMARIZED_POSTED` and
add the URL to `historical_urls` (then save the file). -/
def finishSuccess (s : RunState) (url : PyStr) : RunState :=
  { setStatus s url .summarizedPosted with historical := url :: s.historical }

/-- Lines 556-571: post all formatted chunks of the summary to a known
thread; `base` carries the effect counts accumulated so far (its
`posted`/`sendFailed`/`aborted` fields are still unset). -/
def postToThread (o : ForumOracle) (s : RunState) (url summary channelName : PyStr)
    (base : StepOut) : RunState × StepOut :=
  match format_summaries [(url, summary, channelName)] with
  | .error _ => (s, { base with aborted := true })
  | .ok [] => (setStatus s url .postFailedFormatting, base)
  | .ok (c :: cs) =>
    let r := sendSeq o.sendOk 0 (c :: cs)
    if r.1 then (finishSuccess s url, { base with sends := base.sends + r.2, posted := some url })
    else (setStatus s url .postFailedChunk,
          { base with sends := base.sends + r.2, sendFailed := true })

/-- Lines 526-549: no existing thread found — format the summary, create the
thread with the first chunk as initial content, then send the remaining
chunks.  The created id is *not* written back to `target_thread_id`. -/
def createThreadPath (o : ForumOracle) (s : RunState) (url summary channelName : PyStr)
    (base : StepOut) : RunState × StepOut :=
  match format_summaries [(url, summary, channelName)] with
  | .error _ => (s, { base with aborted := true })
  | .ok [] => (setStatus s url .postFailedFormatting, base)
  | .ok (_first :: rest) =>
    match o.createThread with
    | none => (setStatus s url .postFailedThreadCreate, { base with creates := base.creates + 1 })
    | some _tid =>
      let r := sendSeq o.sendOk 0 rest
      if r.1 then
        (finishSuccess s url,
         { base with creates := base.creates + 1, sends := base.sends + r.2, posted := some url })
      else
        (setStatus s url .postFailedChunk,
         { base with creates := base.creates + 1, sends := base.sends + r.2, sendFailed := true })

/-- Lines 516-571: resolve the daily thread (only when `target_thread_id` is
still unknown for the run) and post.  Only the found branch (line 552)
persists the id into `target_thread_id`. -/
def resolveAndPost (o : ForumOracle) (s : RunState) (url summary channelName : PyStr)
    (base : StepOut) : RunState × StepOut :=
  match s.targetThreadId with
  | some _tid => postToThread o s url summary channelName base
  | none =>
    let base := { base with finds := base.finds + 1 }
    match o.findThread with
    | none => createThreadPath o s url summary channelName base
    | some tid =>
      postToThread o { s with targetThreadId := some tid } url summary channelName base

/-- Lines 579-580: `elif url_to_process not in processed_urls_status:
POST_FAILED_UNKNOWN` (dead in practice since `SUMMARIZED` was recorded). -/
def finalizeStatus (s : RunState) (url : PyStr) : RunState :=
  if (statusOf s url).isSome then s else setStatus s url .postFailedUnknown

/-- Lines 585-588: summary generation failed (`None` or falsy) — record
`FAILED_SUMMARY` unless a more specific status is already present. -/
def fallbackFailed (s : RunState) (url : PyStr) (eff : StepOut) : RunState × StepOut :=
  (if (statusOf s url).isSome then s else setStatus s url .failedSummary, eff)

/-- Lines 477-507: the summary-generation phase for a non-duplicate URL.
Returns (the `summary_text` value, a status to record first, effects).
`o.genYt`/`o.gen` being `none` models an exception or a `None` return. -/
def summaryPhase (o : ForumOracle) (url : PyStr) :
    Option PyStr × Option UrlStatus × StepOut :=
  if pyContains (txt "x.com") url then
    (none, some .skippedXcom, zeroOut)
  else if pyContains (txt "youtube.com") url || pyContains (txt "youtu.be") url then
    (o.genYt, none, { zeroOut with gens := 1 })
  else
    match o.scrape with
    | some t =>
      if t = [] then (none, some .failedScrape, { zeroOut with scrapes := 1 })
      else (o.gen, none, { zeroOut with scrapes := 1, gens := 1 })
    | none => (none, some .failedScrape, { zeroOut with scrapes := 1 })

/-- Lines 509-590: what happens after the summary-generation phase, given
the state `s0` (with any generation-failure status already recorded), the
`summary_text` value `sm` and the effects `eff` accumulated so far. -/
def stepForumTail (o : ForumOracle) (s0 : RunState) (url ch : PyStr)
    (sm : Option PyStr) (eff : StepOut) : RunState × StepOut :=
  match sm with
  | some t =>
    if t = [] then fallbackFailed s0 url eff
    else
      let t' := pyStrip t
      if t' = [] then (setStatus s0 url .failedEmptySummary, eff)
      else
        let s1 := setStatus s0 url .summarized
        let r := resolveAndPost o s1 url t' ch eff
        if r.2.aborted || r.2.posted.isSome then r
        else (finalizeStatus r.1 url, r.2)
  | none => fallbackFailed s0 url eff

/-- The whole per-message body of `main`'s loop (lines 447-590). -/
def stepForum (o : ForumOracle) (s : RunState) (m : ForumMsg) : RunState × StepOut :=
  match candidateUrl m.content m.embeds with
  | none => (s, zeroOut)
  | some url =>
    if (statusOf s url).isSome then (s, zeroOut)
    else if url ∈ s.historical then (setStatus s url .duplicateHistorical, zeroOut)
    else
      let p := summaryPhase o url
      let s0 := match p.2.1 with
        | some st => setStatus s url st
        | none => s
      stepForumTail o s0 url m.channelName p.1 p.2.2

/-- The run over a processing-order list of (message, oracle) events: a step
whose uncaught exception (`aborted`) terminates `main` stops the fold. -/
def runForum : List (ForumMsg × ForumOracle) → RunState → RunState × List StepOut
  | [], s => (s, [])
  | (m, o) :: rest, s =>
    let r := stepForum o s m
    if r.2.aborted then (r.1, [r.2])
    else
      let rr := runForum rest r.1
      (rr.1, r.2 :: rr.2)

/-! ## The translate summarizer run (`translate_channel_summary.main`) -/

/-- Run-level state of `translate_channel_summary.main`: the persisted
`processed_urls` set. -/
structure TransState where
  processed : List PyStr
deriving DecidableEq, Repr

/-- Oracle for one message of the translate pipeline; `postOk i` is the
outcome of the i-th POST inside `send_discord_message`. -/
structure TransOracle where
  genYt : Option PyStr
  scrape : Option PyStr
  gen : Option PyStr
  postOk : Nat → Bool

/-- Externally visible activity of one translate step. -/
structure TransOut where
  scrapes : Nat
  gens : Nat
  posts : Nat
  posted : Option PyStr
deriving DecidableEq, Repr

/-- A translate step with no external activity. -/
def zeroOutT : TransOut := ⟨0, 0, 0, none⟩

/-- One message of the `jp` source channel. -/
structure TransMsg where
  messageId : PyStr
  authorName : PyStr
  content : PyStr
  embeds : List Embed
deriving Repr

/-- The `output_message` f-string of lines 309-316 (`SOURCE_CHANNEL_NAME` is
the constant `"jp"`). -/
def transOutputMessage (guildId srcChanId : PyStr) (m : TransMsg)
    (url summary : PyStr) : PyStr :=
  txt "**Summary from #jp (by " ++ m.authorName ++ txt "):**\nURL: " ++ url ++
    txt "\n\n" ++ summary ++
    txt "\n\n*Original Message: <https://discord.com/channels/" ++ guildId ++
    txt "/" ++ srcChanId ++ txt "/" ++ m.messageId ++ txt ">*"

/-- Lines 276-297: the summary-generation phase of the translate pipeline
(YouTube first, then the x.com skip, else scrape-and-generate; the whole
block is wrapped in `try/except`, so `none` covers exceptions too). -/
def summaryPhaseT (o : TransOracle) (url : PyStr) : Option PyStr × TransOut :=
  if pyContains (txt "youtube.com") url || pyContains (txt "youtu.be") url then
    (o.genYt, { zeroOutT with gens := 1 })
  else if pyContains (txt "x.com") url then
    (none, zeroOutT)
  else
    match o.scrape with
    | some t =>
      if t = [] then (none, { zeroOutT with scrapes := 1 })
      else (o.gen, { zeroOutT with scrapes := 1, gens := 1 })
    | none => (none, { zeroOutT with scrapes := 1 })

/-- The per-message body of `translate_channel_summary.main`'s loop
(lines 238-339). -/
def stepTranslate (guildId srcChanId : PyStr) (o : TransOracle) (s : TransState)
    (m : TransMsg) : TransState × TransOut :=
  match candidateUrl m.content m.embeds with
  | none => (s, zeroOutT)
  | some url =>
    if url ∈ s.processed then (s, zeroOutT)
    else
      let p := summaryPhaseT o url
      match p.1 with
      | some t =>
        if t = [] then (s, p.2)
        else
          let t' := pyStrip t
          if t' = [] then (s, p.2)
          else
            let msg := transOutputMessage guildId srcChanId m url t'
            let r := sendDiscordMessageModel o.postOk msg
            if r.1 then
              (⟨url :: s.processed⟩, { p.2 with posts := p.2.posts + r.2, posted := some url })
            else (s, { p.2 with posts := p.2.posts + r.2 })
      | none => (s, p.2)

/-- The translate run over a processing-order list of (message, oracle)
events. -/
def runTranslate (guildId srcChanId : PyStr) :
    List (TransMsg × TransOracle) → TransState → TransState × List TransOut
  | [], s => (s, [])
  | (m, o) :: rest, s =>
    let r := stepTranslate guildId srcChanId o s m
    let rr := runTranslate guildId srcChanId rest r.1
    (rr.1, r.2 :: rr.2)

/-! ## Concrete inputs used by counterexamples, failing-input evaluations and
witnesses -/

/-- A step counts as a processing attempt when it performed any external
activity at all. -/
def workOut (o : StepOut) : Bool := decide (o ≠ zeroOut)

/-- A message carrying `https://a.example/p` in a channel named `news`. -/
def msgA : ForumMsg := ⟨txt "news", txt "see https://a.example/p", []⟩

/-- A message carrying `https://b.example/q` in a channel named `news`. -/
def msgB : ForumMsg := ⟨txt "news", txt "see https://b.example/q", []⟩

/-- An oracle where scraping and generation succeed, no daily thread is
found, thread creation returns `tid`, and every send succeeds. -/
def oracleCreate (tid : Nat) : ForumOracle :=
  ⟨none, some (txt "page text"), some (txt "S"), none, some tid, fun _ => true⟩

/-- Two URLs processed in one run, each with a successful summarize-and-post
and no pre-existing daily thread. -/
def c4Events : List (ForumMsg × ForumOracle) := [(msgA, oracleCreate 5), (msgB, oracleCreate 6)]

/-- A fresh run state: empty persisted record, unresolved thread id, empty
in-run status map. -/
def initState : RunState := ⟨[], none, []⟩

/-- A run state whose persisted record already holds `https://a.example/p`. -/
def dupInit : RunState := ⟨[txt "https://a.example/p"], none, []⟩

/-- One event whose message carries the already-processed URL. -/
def dupEvents : List (ForumMsg × ForumOracle) := [(msgA, oracleCreate 5)]

/-! # Theorems -/

/-! ## Basic text lemmas -/

theorem pyStrip_length_le (s : PyStr) : (pyStrip s).length ≤ s.length := by
  unfold pyStrip
  calc (((s.dropWhile pyIsSpace).reverse.dropWhile pyIsSpace).reverse).length
      = (((s.dropWhile pyIsSpace).reverse.dropWhile pyIsSpace)).length := by
        simp
    _ ≤ ((s.dropWhile pyIsSpace).reverse).length :=
        ((s.dropWhile pyIsSpace).reverse.dropWhile_sublist pyIsSpace).length_le
    _ = (s.dropWhile pyIsSpace).length := by simp
    _ ≤ s.length := (s.dropWhile_sublist pyIsSpace).length_le

theorem length_txt_newline : (txt "\n").length = 1 := rfl

/-! ## C9: `create_daily_thread` truncation -/

/-- C9: when the initial content for a create-thread call exceeds 2000
characters, `create_daily_thread` truncates it to the first 1990 characters
followed by `"..."` (total 1993 ≤ 2000) before issuing the request. -/
theorem create_daily_thread_truncates (c : PyStr) (h : MAX_MESSAGE_LENGTH < c.length) :
    createDailyThreadContent c = c.take 1990 ++ txt "..." ∧
    (createDailyThreadContent c).length = 1993 := by
  unfold createDailyThreadContent
  rw [if_pos h]
  refine ⟨rfl, ?_⟩
  have hmax : MAX_MESSAGE_LENGTH = 2000 := rfl
  rw [hmax] at h
  simp [List.length_take, txt]
  omega

/-- Witness for C9 at a concrete 2001-character input. -/
theorem create_daily_thread_truncates_witness :
    MAX_MESSAGE_LENGTH < (List.replicate 2001 'b').length ∧
    (createDailyThreadContent (List.replicate 2001 'b') =
      (List.replicate 2001 'b').take 1990 ++ txt "..." ∧
     (createDailyThreadContent (List.replicate 2001 'b')).length = 1993) :=
  ⟨by rw [List.length_replicate]; norm_num [MAX_MESSAGE_LENGTH],
   create_daily_thread_truncates (List.replicate 2001 'b')
     (by rw [List.length_replicate]; norm_num [MAX_MESSAGE_LENGTH])⟩

/-! ## C10: `load_processed_urls` fallback behaviour -/

/-- C10 counterexample: `load_processed_urls` is not exception-free — a file
holding the valid JSON value `42` makes `len(urls)` raise `TypeError`, which
no handler catches. -/
theorem load_processed_urls_raises_on_number :
    load_processed_urls (.parsed (.jnum 42)) = .error () := rfl

/-- C10 (amended): for a missing file, an `IOError`, or invalid JSON,
`load_processed_urls` returns the empty set without raising (resetting
duplicate protection); only a valid JSON value of a non-iterable or
unhashable-element shape escapes as an exception. -/
theorem load_processed_urls_fallback (fs : UrlFileState)
    (h : fs = .missing ∨ fs = .ioError ∨ fs = .badJson) :
    load_processed_urls fs = .ok [] := by
  rcases h with h | h | h <;> subst h <;> rfl

/-- Witness for C10's amended theorem at the missing-file state. -/
theorem load_processed_urls_fallback_witness :
    (UrlFileState.missing = UrlFileState.missing ∨ UrlFileState.missing = UrlFileState.ioError ∨
      UrlFileState.missing = UrlFileState.badJson) ∧
    load_processed_urls UrlFileState.missing = .ok [] :=
  ⟨Or.inl rfl, load_processed_urls_fallback UrlFileState.missing (Or.inl rfl)⟩

/-! ## C6: 429 handling (`handle_rate_limit`) -/

/-- C6: in each request loop, a 429 response makes the client sleep for the
body's `retry_after` (1 second when the field is absent) and retry the same
request, so a 429 followed by a success yields exactly one logical success;
concretely, `retry_after: 0.01` then 200 succeeds having slept 1/100 s. -/
theorem rate_limit_retry_behavior :
    (∀ (ras : List (Option ℚ)) (rest : List HttpResp),
       postChunkForum (ras.map HttpResp.rateLimited ++ rest) =
         ((postChunkForum rest).1, ras.map rateLimitSleep ++ (postChunkForum rest).2))
    ∧ (∀ (ras : List (Option ℚ)) (rest : List HttpResp),
       getLoopForum (ras.map HttpResp.rateLimited ++ rest) =
         ((getLoopForum rest).1, ras.map rateLimitSleep ++ (getLoopForum rest).2))
    ∧ postChunkForum [.rateLimited (some (1/100)), .ok] = (some true, [1/100])
    ∧ getLoopForum [.rateLimited (some (1/100)), .ok] = (some true, [1/100])
    ∧ postChunkForum [.rateLimited none, .ok] = (some true, [1]) := by
  refine ⟨?_, ?_, ?_, ?_, ?_⟩
  · intro ras rest
    induction ras with
    | nil => simp
    | cons ra ras ih => simp [postChunkForum, ih]
  · intro ras rest
    induction ras with
    | nil => simp
    | cons ra ras ih => simp [getLoopForum, ih]
  · simp [postChunkForum, rateLimitSleep]
  · simp [getLoopForum, rateLimitSleep]
  · simp [postChunkForum, rateLimitSleep]

/-! ## C3: bounded POST retries -/

/-- C3 counterexample: `post_chunk` (forum and github-action variants) does
*not* report failure after a bounded number of non-429 request errors — no
matter how many consecutive `RequestException`s occur, the loop is still
retrying (result `none`), never returning `False`. -/
theorem post_chunk_unbounded_retry :
    ¬ ∃ N : Nat, ∀ k, N ≤ k →
        (postChunkForum (List.replicate k .reqError)).1 = some false := by
  rintro ⟨N, h⟩
  have hnone : ∀ k, (postChunkForum (List.replicate k HttpResp.reqError)).1 = none := by
    intro k
    induction k with
    | zero => rfl
    | succ n ih => simp [List.replicate, postChunkForum, ih]
  have := h N le_rfl
  rw [hnone N] at this
  exact Option.noConfusion this

/-- C3 (amended): on a non-429 request error, the forum/github-action
`post_chunk` retries indefinitely, sleeping a fixed 2 seconds each time, and
returns `False` only when a non-request ("unexpected") exception occurs; the
translate variant's `post_chunk` instead returns `False` immediately on the
first request error, with no retry. -/
theorem post_chunk_retry_policy :
    (∀ k, postChunkForum (List.replicate k .reqError) = (none, List.replicate k 2))
    ∧ (∀ k, (postChunkForum (List.replicate k .reqError ++ [.unexpected])).1 = some false)
    ∧ (∀ rest, (postChunkTranslate (.reqError :: rest)).1 = some false) := by
  refine ⟨?_, ?_, ?_⟩
  · intro k
    induction k with
    | zero => rfl
    | succ n ih => simp [List.replicate, postChunkForum, ih]
  · intro k
    induction k with
    | zero => rfl
    | succ n ih => simp [List.replicate, postChunkForum, ih]
  · intro rest
    rfl

/-! ## C7: first-URL extraction -/

/-- C7: every message yields at most one candidate URL — the first regex
match in the body, or, when the body has none, the `url` of the first embed
carrying a truthy one; this holds for both the forum/translate extractor and
the github-action extractor, and on the spec's two-URL example body the
first URL wins. -/
theorem extractor_first_url :
    (∀ (content : PyStr) (embeds : List Embed),
       candidateUrl content embeds =
         match extract_urls_from_text content with
         | u :: _ => some u
         | [] => firstTruthyEmbed embeds)
    ∧ (∀ (content : PyStr) (embeds : List Embed),
       candidateUrlGh content embeds =
         match findallUrlsGh content with
         | u :: _ => some u
         | [] => firstTruthyEmbed embeds)
    ∧ candidateUrl (txt "check this out https://example.com/a and https://example.com/b") []
        = some (txt "https://example.com/a") := by
  have hemb : ∀ embeds : List Embed, (truthyEmbedUrls embeds).head? = firstTruthyEmbed embeds := by
    intro embeds
    induction embeds with
    | nil => rfl
    | cons e rest ih =>
      cases e with
      | none => simpa [truthyEmbedUrls, firstTruthyEmbed] using ih
      | some u =>
        by_cases hu : u = []
        · subst hu
          simpa [truthyEmbedUrls, firstTruthyEmbed] using ih
        · simp [truthyEmbedUrls, firstTruthyEmbed, hu]
  refine ⟨?_, ?_, ?_⟩
  · intro content embeds
    unfold candidateUrl
    cases h : extract_urls_from_text content with
    | nil => simp [h, hemb]
    | cons u us => simp [h]
  · intro content embeds
    unfold candidateUrlGh
    cases h : findallUrlsGh content with
    | nil =>
      by_cases he : embeds = (([] : List Embed))
      · subst he
        simp [h, firstTruthyEmbed]
      · simp [h, he, hemb]
    | cons u us => simp [h]
  · decide

/-! ## C1: chunk lengths of `send_discord_message` -/

theorem chunkLoopForum_length_le (maxLen : Nat) (ls : List PyStr) :
    ∀ current : PyStr, (∀ l ∈ ls, l.length + 1 ≤ maxLen) → current.length ≤ maxLen →
      ∀ c ∈ chunkLoopForum maxLen ls current, c.length ≤ maxLen := by
  induction ls with
  | nil =>
    intro current _ hcur c hc
    unfold chunkLoopForum at hc
    split at hc
    · simp at hc
    · rw [List.mem_singleton] at hc
      subst hc
      exact le_trans (pyStrip_length_le current) hcur
  | cons l ls ih =>
    intro current hls hcur c hc
    have hl : l.length + 1 ≤ maxLen := hls l (List.mem_cons_self l ls)
    have hls' : ∀ x ∈ ls, x.length + 1 ≤ maxLen := fun x hx => hls x (List.mem_cons_of_mem l hx)
    unfold chunkLoopForum at hc
    split at hc
    · rcases List.mem_cons.mp hc with h | h
      · subst h; exact hcur
      · exact ih (l ++ txt "\n") hls' (by simpa using hl) c h
    · rename_i hguard
      refine ih (current ++ l ++ txt "\n") hls' ?_ c hc
      simp only [not_lt] at hguard
      simpa using hguard

/-- Lines with no newline character pass through `split("\n")` unsplit. -/
theorem pySplitLinesAux_no_newline (l : PyStr) :
    ∀ acc : PyStr, '\n' ∉ l → pySplitLinesAux acc l = [acc.reverse ++ l] := by
  induction l with
  | nil => intro acc _; simp [pySplitLinesAux]
  | cons c cs ih =>
    intro acc h
    rw [List.mem_cons, not_or] at h
    have hc : ¬ c = '\n' := fun heq => h.1 heq.symm
    unfold pySplitLinesAux
    rw [if_neg hc, ih (c :: acc) h.2]
    simp

theorem dropWhile_replicate_a (n : Nat) :
    (List.replicate n 'a').dropWhile pyIsSpace = List.replicate n 'a' := by
  cases n with
  | zero => rfl
  | succ m =>
    rw [List.replicate_succ, List.dropWhile_cons, if_neg (by decide)]

/-- Evaluation of the splitter on a single 2001-character word: the emitted
chunks are the (spurious) empty first flush and the whole word, unsplit. -/
theorem emittedChunks_long_word :
    emittedChunksForum (List.replicate 2001 'a') = [[], List.replicate 2001 'a'] := by
  have hlen : (List.replicate 2001 'a').length = 2001 := List.length_replicate 2001 'a'
  have hsplit : pySplitLines (List.replicate 2001 'a') = [List.replicate 2001 'a'] := by
    unfold pySplitLines
    rw [pySplitLinesAux_no_newline _ []
      (fun hmem => absurd (List.eq_of_mem_replicate hmem) (by decide))]
    rw [List.reverse_nil, List.nil_append]
  have hstrip : pyStrip (List.replicate 2001 'a' ++ txt "\n") = List.replicate 2001 'a' := by
    unfold pyStrip
    have h1 : (List.replicate 2001 'a' ++ txt "\n").dropWhile pyIsSpace =
        List.replicate 2001 'a' ++ txt "\n" := by
      rw [show (2001 : Nat) = 2000 + 1 from rfl, List.replicate_succ, List.cons_append,
        List.dropWhile_cons, if_neg (by decide)]
    rw [h1]
    have h2 : (List.replicate 2001 'a' ++ txt "\n").reverse =
        '\n' :: List.replicate 2001 'a' := by
      rw [List.reverse_append, List.reverse_replicate]
      rfl
    rw [h2, List.dropWhile_cons, if_pos (by decide), dropWhile_replicate_a,
      List.reverse_replicate]
  unfold emittedChunksForum
  rw [if_neg (by rw [hlen]; norm_num [MAX_MESSAGE_LENGTH]), hsplit]
  unfold chunkLoopForum
  rw [if_pos (by rw [List.length_nil, hlen]; norm_num [MAX_MESSAGE_LENGTH])]
  unfold chunkLoopForum
  rw [if_neg (by
    intro hEq
    have := congrArg List.length hEq
    rw [List.length_append, hlen] at this
    simp [txt] at this)]
  rw [hstrip]

/-- C1 counterexample: a single word of 2001 characters is passed to
`send_discord_message` and emitted as a chunk of length 2001 > 2000 — the
splitter never breaks a line, so an over-long line defeats the limit. -/
theorem send_discord_message_oversized_chunk :
    ¬ ∀ c ∈ emittedChunksForum (List.replicate 2001 'a'),
        c.length ≤ MAX_MESSAGE_LENGTH := by
  intro h
  have hm : List.replicate 2001 'a' ∈ emittedChunksForum (List.replicate 2001 'a') := by
    rw [emittedChunks_long_word]
    exact List.mem_cons_of_mem _ (List.mem_cons_self _ _)
  have := h _ hm
  rw [List.length_replicate] at this
  norm_num [MAX_MESSAGE_LENGTH] at this

/-- C1 (amended): every chunk emitted by `send_discord_message` is at most
2000 characters long, provided every newline-separated line of the input is
shorter than 2000 characters; a single longer line is emitted intact as one
oversized chunk (see the counterexample), and an oversized formatted summary
part produced by `format_summaries` is re-split by this function before
being POSTed. -/
theorem send_discord_message_chunk_length (content : PyStr)
    (h : ∀ l ∈ pySplitLines content, l.length + 1 ≤ MAX_MESSAGE_LENGTH) :
    ∀ c ∈ emittedChunksForum content, c.length ≤ MAX_MESSAGE_LENGTH := by
  unfold emittedChunksForum
  split
  · rename_i hshort
    intro c hc
    rw [List.mem_singleton] at hc
    subst hc
    exact hshort
  · exact chunkLoopForum_length_le MAX_MESSAGE_LENGTH (pySplitLines content) [] h (by simp)

/-- Witness for C1's amended theorem at a concrete two-line input. -/
theorem send_discord_message_chunk_length_witness :
    (∀ l ∈ pySplitLines (txt "ab\ncd"), l.length + 1 ≤ MAX_MESSAGE_LENGTH) ∧
    (∀ c ∈ emittedChunksForum (txt "ab\ncd"), c.length ≤ MAX_MESSAGE_LENGTH) :=
  ⟨by decide, send_discord_message_chunk_length (txt "ab\ncd") (by decide)⟩

/-! ## C4: daily-thread resolver caching -/

/-- C4 failing-run evaluation: two URLs summarized and posted successfully
in one run with no pre-existing daily thread.  The first step creates the
thread, but `target_thread_id` is still unresolved afterwards, so the second
step runs `find_daily_thread` again and — its oracle again finding nothing —
issues a *second* `create_daily_thread` call: the resolver is executed once
per URL, not once per run. -/
theorem daily_thread_resolver_reruns :
    ((runForum c4Events initState).2.map fun o => (o.finds, o.creates)) = [(1, 1), (1, 1)]
    ∧ (runForum c4Events initState).1.targetThreadId = none
    ∧ ((runForum c4Events initState).2.map StepOut.posted) =
        [some (txt "https://a.example/p"), some (txt "https://b.example/q")] := by
  refine ⟨?_, ?_, ?_⟩ <;> decide

/-! ## Step-level lemmas about `stepForum` -/

theorem statusOf_setStatus (s : RunState) (u : PyStr) (st : UrlStatus) (v : PyStr) :
    statusOf (setStatus s u st) v = if v = u then some st else statusOf s v := by
  unfold statusOf setStatus
  rw [List.find?_cons]
  by_cases h : u = v
  · subst h
    simp
  · have hv : ¬ v = u := fun hv => h hv.symm
    simp [h, hv]

theorem statusOf_setStatus_self (s : RunState) (u : PyStr) (st : UrlStatus) :
    statusOf (setStatus s u st) u = some st := by
  rw [statusOf_setStatus, if_pos rfl]

theorem statusOf_finishSuccess (s : RunState) (u : PyStr) (v : PyStr) :
    statusOf (finishSuccess s u) v =
      if v = u then some UrlStatus.summarizedPosted else statusOf s v :=
  statusOf_setStatus s u .summarizedPosted v

theorem statusOf_setTarget (s : RunState) (x : Option Nat) (v : PyStr) :
    statusOf { s with targetThreadId := x } v = statusOf s v := rfl

theorem summaryPhase_base (o : ForumOracle) (url : PyStr) :
    (summaryPhase o url).2.2.posted = none ∧
    (summaryPhase o url).2.2.sendFailed = false ∧
    (summaryPhase o url).2.2.aborted = false := by
  unfold summaryPhase
  repeat' split
  all_goals simp [zeroOut]

theorem postToThread_hist (o : ForumOracle) (s : RunState) (url t ch : PyStr)
    (base : StepOut) (hb : base.posted = none) :
    (postToThread o s url t ch base).1.historical =
      match (postToThread o s url t ch base).2.posted with
      | some u => u :: s.historical
      | none => s.historical := by
  unfold postToThread
  split
  · simp [hb]
  · simp [hb, setStatus]
  · by_cases hr : (sendSeq o.sendOk 0 (by rename_i c cs heq; exact c :: cs)).1
    all_goals rename_i c cs heq
    · simp [hr, finishSuccess, setStatus]
    · simp [hr, hb, setStatus]

theorem postToThread_posted (o : ForumOracle) (s : RunState) (url t ch : PyStr)
    (base : StepOut) (hb : base.posted = none) (hbf : base.sendFailed = false) :
    ∀ u, (postToThread o s url t ch base).2.posted = some u →
      u = url ∧ (postToThread o s url t ch base).2.sendFailed = false ∧
      statusOf (postToThread o s url t ch base).1 u = some .summarizedPosted := by
  unfold postToThread
  split
  · intro u hu; simp [hb] at hu
  · intro u hu; simp [hb] at hu
  · rename_i c cs heq
    by_cases hr : (sendSeq o.sendOk 0 (c :: cs)).1
    · intro u hu
      simp [hr] at hu ⊢
      subst hu
      exact ⟨rfl, hbf, by rw [statusOf_finishSuccess, if_pos rfl]⟩
    · intro u hu; simp [hr, hb] at hu

theorem postToThread_statusMono (o : ForumOracle) (s : RunState) (url t ch : PyStr)
    (base : StepOut) :
    ∀ v, (statusOf s v).isSome → (statusOf (postToThread o s url t ch base).1 v).isSome := by
  unfold postToThread
  split
  · exact fun v h => h
  · intro v h
    rw [statusOf_setStatus]
    by_cases hv : v = url
    · simp [hv]
    · simpa [hv] using h
  · rename_i c cs heq
    by_cases hr : (sendSeq o.sendOk 0 (c :: cs)).1
    · intro v h
      simp only [hr, if_true]
      rw [statusOf_finishSuccess]
      by_cases hv : v = url
      · simp [hv]
      · simpa [hv] using h
    · intro v h
      simp only [hr]
      rw [if_neg (by simp [hr])]
      rw [statusOf_setStatus]
      by_cases hv : v = url
      · simp [hv]
      · simpa [hv] using h

theorem createThreadPath_hist (o : ForumOracle) (s : RunState) (url t ch : PyStr)
    (base : StepOut) (hb : base.posted = none) :
    (createThreadPath o s url t ch base).1.historical =
      match (createThreadPath o s url t ch base).2.posted with
      | some u => u :: s.historical
      | none => s.historical := by
  unfold createThreadPath
  split
  · simp [hb]
  · simp [hb, setStatus]
  · rename_i c cs heq
    split
    · simp [hb, setStatus]
    · by_cases hr : (sendSeq o.sendOk 0 cs).1
      · simp [hr, finishSuccess, setStatus]
      · simp [hr, hb, setStatus]

theorem createThreadPath_posted (o : ForumOracle) (s : RunState) (url t ch : PyStr)
    (base : StepOut) (hb : base.posted = none) (hbf : base.sendFailed = false) :
    ∀ u, (createThreadPath o s url t ch base).2.posted = some u →
      u = url ∧ (createThreadPath o s url t ch base).2.sendFailed = false ∧
      statusOf (createThreadPath o s url t ch base).1 u = some .summarizedPosted := by
  unfold createThreadPath
  split
  · intro u hu; simp [hb] at hu
  · intro u hu; simp [hb] at hu
  · rename_i c cs heq
    split
    · intro u hu; simp [hb] at hu
    · by_cases hr : (sendSeq o.sendOk 0 cs).1
      · intro u hu
        simp [hr] at hu ⊢
        subst hu
        exact ⟨rfl, hbf, by rw [statusOf_finishSuccess, if_pos rfl]⟩
      · intro u hu; simp [hr, hb] at hu

theorem createThreadPath_statusMono (o : ForumOracle) (s : RunState) (url t ch : PyStr)
    (base : StepOut) :
    ∀ v, (statusOf s v).isSome → (statusOf (createThreadPath o s url t ch base).1 v).isSome := by
  unfold createThreadPath
  split
  · exact fun v h => h
  · intro v h
    rw [statusOf_setStatus]
    by_cases hv : v = url
    · simp [hv]
    · simpa [hv] using h
  · rename_i c cs heq
    split
    · intro v h
      rw [statusOf_setStatus]
      by_cases hv : v = url
      · simp [hv]
      · simpa [hv] using h
    · by_cases hr : (sendSeq o.sendOk 0 cs).1
      · intro v h
        simp only [hr, if_true]
        rw [statusOf_finishSuccess]
        by_cases hv : v = url
        · simp [hv]
        · simpa [hv] using h
      · intro v h
        simp only [hr]
        rw [if_neg (by simp [hr])]
        rw [statusOf_setStatus]
        by_cases hv : v = url
        · simp [hv]
        · simpa [hv] using h

theorem resolveAndPost_hist (o : ForumOracle) (s : RunState) (url t ch : PyStr)
    (base : StepOut) (hb : base.posted = none) :
    (resolveAndPost o s url t ch base).1.historical =
      match (resolveAndPost o s url t ch base).2.posted with
      | some u => u :: s.historical
      | none => s.historical := by
  unfold resolveAndPost
  split
  · exact postToThread_hist o s url t ch base hb
  · split
    · exact createThreadPath_hist o s url t ch _ hb
    · rename_i tid _
      exact postToThread_hist o { s with targetThreadId := some tid } url t ch _ hb

theorem resolveAndPost_posted (o : ForumOracle) (s : RunState) (url t ch : PyStr)
    (base : StepOut) (hb : base.posted = none) (hbf : base.sendFailed = false) :
    ∀ u, (resolveAndPost o s url t ch base).2.posted = some u →
      u = url ∧ (resolveAndPost o s url t ch base).2.sendFailed = false ∧
      statusOf (resolveAndPost o s url t ch base).1 u = some .summarizedPosted := by
  unfold resolveAndPost
  split
  · exact postToThread_posted o s url t ch base hb hbf
  · split
    · exact createThreadPath_posted o s url t ch _ hb hbf
    · rename_i tid _
      exact postToThread_posted o { s with targetThreadId := some tid } url t ch _ hb hbf

theorem resolveAndPost_statusMono (o : ForumOracle) (s : RunState) (url t ch : PyStr)
    (base : StepOut) :
    ∀ v, (statusOf s v).isSome → (statusOf (resolveAndPost o s url t ch base).1 v).isSome := by
  unfold resolveAndPost
  split
  · exact postToThread_statusMono o s url t ch base
  · split
    · exact createThreadPath_statusMono o s url t ch _
    · rename_i tid _
      exact postToThread_statusMono o { s with targetThreadId := some tid } url t ch _

theorem finalizeStatus_historical (s : RunState) (url : PyStr) :
    (finalizeStatus s url).historical = s.historical := by
  unfold finalizeStatus
  split <;> simp [setStatus]


theorem finalizeStatus_statusMono (s : RunState) (url : PyStr) :
    ∀ v, (statusOf s v).isSome → (statusOf (finalizeStatus s url) v).isSome := by
  intro v h
  unfold finalizeStatus
  split
  · exact h
  · rw [statusOf_setStatus]
    by_cases hv : v = url
    · simp [hv]
    · simpa [hv] using h

theorem fallbackFailed_snd (s : RunState) (url : PyStr) (eff : StepOut) :
    (fallbackFailed s url eff).2 = eff := rfl

theorem fallbackFailed_fst_historical (s : RunState) (url : PyStr) (eff : StepOut) :
    (fallbackFailed s url eff).1.historical = s.historical := by
  unfold fallbackFailed
  split <;> simp [setStatus]

theorem fallbackFailed_fst_status (s : RunState) (url : PyStr) (eff : StepOut) :
    (statusOf (fallbackFailed s url eff).1 url).isSome := by
  unfold fallbackFailed
  split
  · assumption
  · rw [statusOf_setStatus_self]
    rfl

theorem fallbackFailed_statusMono (s : RunState) (url : PyStr) (eff : StepOut) :
    ∀ v, (statusOf s v).isSome → (statusOf (fallbackFailed s url eff).1 v).isSome := by
  intro v h
  unfold fallbackFailed
  split
  · exact h
  · rw [statusOf_setStatus]
    by_cases hv : v = url
    · simp [hv]
    · simpa [hv] using h

theorem stepForumTail_hist (o : ForumOracle) (s0 : RunState) (url ch : PyStr)
    (sm : Option PyStr) (eff : StepOut) (hb0 : eff.posted = none) :
    (stepForumTail o s0 url ch sm eff).1.historical =
      match (stepForumTail o s0 url ch sm eff).2.posted with
      | some u => u :: s0.historical
      | none => s0.historical := by
  cases sm with
  | none =>
    simp only [stepForumTail]
    rw [fallbackFailed_snd, hb0, fallbackFailed_fst_historical]
  | some t =>
    simp only [stepForumTail]
    by_cases ht : t = []
    · rw [if_pos ht, fallbackFailed_snd, hb0, fallbackFailed_fst_historical]
    · rw [if_neg ht]
      by_cases ht' : pyStrip t = []
      · rw [if_pos ht']
        simp [setStatus, hb0]
      · rw [if_neg ht']
        have hrap := resolveAndPost_hist o (setStatus s0 url .summarized) url
          (pyStrip t) ch eff hb0
        have hsh : (setStatus s0 url .summarized).historical = s0.historical := rfl
        rw [hsh] at hrap
        by_cases hflag :
            ((resolveAndPost o (setStatus s0 url .summarized) url (pyStrip t) ch eff).2.aborted ||
             (resolveAndPost o (setStatus s0 url .summarized) url (pyStrip t) ch
               eff).2.posted.isSome) = true
        · rw [if_pos hflag]
          exact hrap
        · rw [if_neg hflag]
          have hpn : (resolveAndPost o (setStatus s0 url .summarized) url (pyStrip t) ch
              eff).2.posted = none := by
            cases hp : (resolveAndPost o (setStatus s0 url .summarized) url (pyStrip t) ch
                eff).2.posted with
            | none => rfl
            | some u => exact absurd (by simp [hp]) hflag
          rw [finalizeStatus_historical, hrap, hpn]

theorem stepForumTail_posted (o : ForumOracle) (s0 : RunState) (url ch : PyStr)
    (sm : Option PyStr) (eff : StepOut) (hb0 : eff.posted = none)
    (hbf0 : eff.sendFailed = false) :
    ∀ u, (stepForumTail o s0 url ch sm eff).2.posted = some u →
      u = url ∧ (stepForumTail o s0 url ch sm eff).2.sendFailed = false ∧
      statusOf (stepForumTail o s0 url ch sm eff).1 u = some .summarizedPosted := by
  cases sm with
  | none =>
    simp only [stepForumTail]
    intro u hu; rw [fallbackFailed_snd, hb0] at hu; exact Option.noConfusion hu
  | some t =>
    simp only [stepForumTail]
    by_cases ht : t = []
    · rw [if_pos ht]
      intro u hu; rw [fallbackFailed_snd, hb0] at hu; exact Option.noConfusion hu
    · rw [if_neg ht]
      by_cases ht' : pyStrip t = []
      · rw [if_pos ht']
        intro u hu; rw [hb0] at hu; exact Option.noConfusion hu
      · rw [if_neg ht']
        by_cases hflag :
            ((resolveAndPost o (setStatus s0 url .summarized) url (pyStrip t) ch eff).2.aborted ||
             (resolveAndPost o (setStatus s0 url .summarized) url (pyStrip t) ch
               eff).2.posted.isSome) = true
        · rw [if_pos hflag]
          exact resolveAndPost_posted o (setStatus s0 url .summarized) url (pyStrip t) ch eff
            hb0 hbf0
        · rw [if_neg hflag]
          intro u hu
          have hpn : (resolveAndPost o (setStatus s0 url .summarized) url (pyStrip t) ch
              eff).2.posted = none := by
            cases hp : (resolveAndPost o (setStatus s0 url .summarized) url (pyStrip t) ch
                eff).2.posted with
            | none => rfl
            | some w => exact absurd (by simp [hp]) hflag
          rw [hpn] at hu
          exact Option.noConfusion hu

theorem stepForumTail_statusMono (o : ForumOracle) (s0 : RunState) (url ch : PyStr)
    (sm : Option PyStr) (eff : StepOut) :
    ∀ v, (statusOf s0 v).isSome → (statusOf (stepForumTail o s0 url ch sm eff).1 v).isSome := by
  intro v h
  cases sm with
  | none =>
    simp only [stepForumTail]
    exact fallbackFailed_statusMono s0 url eff v h
  | some t =>
    simp only [stepForumTail]
    by_cases ht : t = []
    · rw [if_pos ht]; exact fallbackFailed_statusMono s0 url eff v h
    · rw [if_neg ht]
      by_cases ht' : pyStrip t = []
      · rw [if_pos ht']
        rw [statusOf_setStatus]
        by_cases hv : v = url
        · simp [hv]
        · simpa [hv] using h
      · rw [if_neg ht']
        have h1 : (statusOf (setStatus s0 url .summarized) v).isSome := by
          rw [statusOf_setStatus]
          by_cases hv : v = url
          · simp [hv]
          · simpa [hv] using h
        have h2 := resolveAndPost_statusMono o (setStatus s0 url .summarized) url
          (pyStrip t) ch eff v h1
        by_cases hflag :
            ((resolveAndPost o (setStatus s0 url .summarized) url (pyStrip t) ch eff).2.aborted ||
             (resolveAndPost o (setStatus s0 url .summarized) url (pyStrip t) ch
               eff).2.posted.isSome) = true
        · rw [if_pos hflag]; exact h2
        · rw [if_neg hflag]
          exact finalizeStatus_statusMono _ url v h2

theorem stepForumTail_sets_status (o : ForumOracle) (s0 : RunState) (url ch : PyStr)
    (sm : Option PyStr) (eff : StepOut) :
    (statusOf (stepForumTail o s0 url ch sm eff).1 url).isSome := by
  cases sm with
  | none =>
    simp only [stepForumTail]
    exact fallbackFailed_fst_status s0 url eff
  | some t =>
    simp only [stepForumTail]
    by_cases ht : t = []
    · rw [if_pos ht]; exact fallbackFailed_fst_status s0 url eff
    · rw [if_neg ht]
      by_cases ht' : pyStrip t = []
      · rw [if_pos ht']
        rw [statusOf_setStatus_self]
        rfl
      · rw [if_neg ht']
        have h1 : (statusOf (setStatus s0 url .summarized) url).isSome := by
          rw [statusOf_setStatus_self]; rfl
        have h2 := resolveAndPost_statusMono o (setStatus s0 url .summarized) url
          (pyStrip t) ch eff url h1
        by_cases hflag :
            ((resolveAndPost o (setStatus s0 url .summarized) url (pyStrip t) ch eff).2.aborted ||
             (resolveAndPost o (setStatus s0 url .summarized) url (pyStrip t) ch
               eff).2.posted.isSome) = true
        · rw [if_pos hflag]; exact h2
        · rw [if_neg hflag]
          exact finalizeStatus_statusMono _ url url h2

theorem stepForum_hist (o : ForumOracle) (s : RunState) (m : ForumMsg) :
    (stepForum o s m).1.historical =
      match (stepForum o s m).2.posted with
      | some u => u :: s.historical
      | none => s.historical := by
  unfold stepForum
  cases hc : candidateUrl m.content m.embeds with
  | none => simp [zeroOut]
  | some url =>
    by_cases h1 : (statusOf s url).isSome = true
    · simp [h1, zeroOut]
    · by_cases h2 : url ∈ s.historical
      · simp [h1, h2, setStatus, zeroOut]
      · simp only [h1, h2, if_neg h1, if_neg h2, if_false]
        obtain ⟨hb0, _, _⟩ := summaryPhase_base o url
        have htail := stepForumTail_hist o
          (match (summaryPhase o url).2.1 with
            | some st => setStatus s url st
            | none => s) url m.channelName (summaryPhase o url).1 (summaryPhase o url).2.2 hb0
        have hs0 : (match (summaryPhase o url).2.1 with
            | some st => setStatus s url st
            | none => s : RunState).historical = s.historical := by
          cases (summaryPhase o url).2.1 <;> simp [setStatus]
        rw [hs0] at htail
        exact htail

theorem stepForum_posted (o : ForumOracle) (s : RunState) (m : ForumMsg) :
    ∀ u, (stepForum o s m).2.posted = some u →
      candidateUrl m.content m.embeds = some u ∧
      (stepForum o s m).2.sendFailed = false ∧
      statusOf (stepForum o s m).1 u = some .summarizedPosted := by
  unfold stepForum
  cases hc : candidateUrl m.content m.embeds with
  | none => intro u hu; exact Option.noConfusion hu
  | some url =>
    by_cases h1 : (statusOf s url).isSome = true
    · simp only [h1, if_true]
      intro u hu; exact Option.noConfusion hu
    · by_cases h2 : url ∈ s.historical
      · simp only [h1, h2, if_neg h1, if_pos h2, if_true]
        intro u hu; exact Option.noConfusion hu
      · simp only [h1, h2, if_neg h1, if_neg h2, if_false]
        obtain ⟨hb0, hbf0, _⟩ := summaryPhase_base o url
        intro u hu
        obtain ⟨hequ, hsf, hst⟩ := stepForumTail_posted o
          (match (summaryPhase o url).2.1 with
            | some st => setStatus s url st
            | none => s) url m.channelName (summaryPhase o url).1 (summaryPhase o url).2.2
          hb0 hbf0 u hu
        exact ⟨by rw [hequ], hsf, hst⟩

theorem stepForum_skip (o : ForumOracle) (s : RunState) (m : ForumMsg) (u : PyStr)
    (hc : candidateUrl m.content m.embeds = some u) (h1 : (statusOf s u).isSome = true) :
    stepForum o s m = (s, zeroOut) := by
  unfold stepForum
  rw [hc]
  simp [h1]

theorem stepForum_dup (o : ForumOracle) (s : RunState) (m : ForumMsg) (u : PyStr)
    (hc : candidateUrl m.content m.embeds = some u) (h1 : ¬ (statusOf s u).isSome = true)
    (h2 : u ∈ s.historical) :
    stepForum o s m = (setStatus s u .duplicateHistorical, zeroOut) := by
  unfold stepForum
  rw [hc]
  simp [h1, h2]

theorem stepForum_sets_status (o : ForumOracle) (s : RunState) (m : ForumMsg) (u : PyStr)
    (hc : candidateUrl m.content m.embeds = some u) :
    (statusOf (stepForum o s m).1 u).isSome := by
  unfold stepForum
  rw [hc]
  by_cases h1 : (statusOf s u).isSome = true
  · simpa [h1] using h1
  · by_cases h2 : u ∈ s.historical
    · simp only [h1, h2, if_neg h1, if_pos h2, if_true, Bool.false_eq_true, if_false]
      rw [statusOf_setStatus_self]
      rfl
    · simp only [h1, h2, if_neg h1, if_neg h2, if_false]
      exact stepForumTail_sets_status o _ u m.channelName _ _

theorem stepForum_statusMono (o : ForumOracle) (s : RunState) (m : ForumMsg) :
    ∀ v, (statusOf s v).isSome → (statusOf (stepForum o s m).1 v).isSome := by
  intro v h
  unfold stepForum
  cases hc : candidateUrl m.content m.embeds with
  | none => exact h
  | some url =>
    by_cases h1 : (statusOf s url).isSome = true
    · simpa [h1] using h
    · by_cases h2 : url ∈ s.historical
      · simp only [h1, h2, if_neg h1, if_pos h2, if_true, Bool.false_eq_true, if_false]
        rw [statusOf_setStatus]
        by_cases hv : v = url
        · simp [hv]
        · simpa [hv] using h
      · simp only [h1, h2, if_neg h1, if_neg h2, if_false]
        refine stepForumTail_statusMono o _ url m.channelName _ _ v ?_
        cases (summaryPhase o url).2.1 with
        | none => exact h
        | some st =>
          rw [statusOf_setStatus]
          by_cases hv : v = url
          · simp [hv]
          · simpa [hv] using h

/-! ## Run-level lemmas for `runForum` -/

theorem runForum_hist_mono (evs : List (ForumMsg × ForumOracle)) :
    ∀ s : RunState, ∀ u ∈ s.historical, u ∈ (runForum evs s).1.historical := by
  induction evs with
  | nil => intro s u hu; exact hu
  | cons e rest ih =>
    intro s u hu
    obtain ⟨m, o⟩ := e
    unfold runForum
    have hstep : u ∈ (stepForum o s m).1.historical := by
      rw [stepForum_hist]
      cases (stepForum o s m).2.posted with
      | none => exact hu
      | some w => exact List.mem_cons_of_mem w hu
    by_cases ha : (stepForum o s m).2.aborted = true
    · simp only [ha, if_true]
      exact hstep
    · simp only [ha, Bool.false_eq_true, if_false]
      exact ih (stepForum o s m).1 u hstep

theorem runForum_new_posted (evs : List (ForumMsg × ForumOracle)) :
    ∀ s : RunState, ∀ u, u ∈ (runForum evs s).1.historical →
      u ∈ s.historical ∨ ∃ out ∈ (runForum evs s).2, out.posted = some u := by
  induction evs with
  | nil => intro s u hu; exact Or.inl hu
  | cons e rest ih =>
    intro s u hu
    obtain ⟨m, o⟩ := e
    unfold runForum at hu ⊢
    by_cases ha : (stepForum o s m).2.aborted = true
    · simp only [ha, if_true] at hu ⊢
      rw [stepForum_hist] at hu
      cases hp : (stepForum o s m).2.posted with
      | none => rw [hp] at hu; exact Or.inl hu
      | some w =>
        rw [hp] at hu
        rcases List.mem_cons.mp hu with h | h
        · subst h
          exact Or.inr ⟨(stepForum o s m).2, List.mem_singleton_self _, hp⟩
        · exact Or.inl h
    · simp only [ha, Bool.false_eq_true, if_false] at hu ⊢
      rcases ih (stepForum o s m).1 u hu with h | ⟨out, hout, hpost⟩
      · rw [stepForum_hist] at h
        cases hp : (stepForum o s m).2.posted with
        | none => rw [hp] at h; exact Or.inl h
        | some w =>
          rw [hp] at h
          rcases List.mem_cons.mp h with h' | h'
          · subst h'
            exact Or.inr ⟨(stepForum o s m).2, List.mem_cons_self _ _, hp⟩
          · exact Or.inl h'
      · exact Or.inr ⟨out, List.mem_cons_of_mem _ hout, hpost⟩

/-! ## Step-level lemmas about `stepTranslate` -/

theorem stepTranslate_processed (guildId srcChanId : PyStr) (o : TransOracle)
    (s : TransState) (m : TransMsg) :
    (stepTranslate guildId srcChanId o s m).1.processed =
      match (stepTranslate guildId srcChanId o s m).2.posted with
      | some u => u :: s.processed
      | none => s.processed := by
  unfold stepTranslate
  cases hc : candidateUrl m.content m.embeds with
  | none => simp [zeroOutT]
  | some url =>
    by_cases h1 : url ∈ s.processed
    · simp [h1, zeroOutT]
    · simp only [h1, if_neg h1, if_false]
      rcases hsp : summaryPhaseT o url with ⟨sm, eff⟩
      have heffp : eff.posted = none := by
        have : (summaryPhaseT o url).2.posted = none := by
          unfold summaryPhaseT
          repeat' split
          all_goals simp [zeroOutT]
        rw [hsp] at this
        exact this
      cases sm with
      | none => simp [heffp]
      | some t =>
        by_cases ht : t = []
        · simp [ht, heffp]
        · simp only [ht, if_neg ht]
          by_cases ht' : pyStrip t = []
          · simp [ht', heffp]
          · simp only [ht', if_neg ht']
            by_cases hr : (sendDiscordMessageModel o.postOk
                (transOutputMessage guildId srcChanId m url (pyStrip t))).1 = true
            · simp [hr]
            · simp [hr, heffp]

theorem stepTranslate_skip (guildId srcChanId : PyStr) (o : TransOracle)
    (s : TransState) (m : TransMsg) (u : PyStr)
    (hc : candidateUrl m.content m.embeds = some u) (h1 : u ∈ s.processed) :
    stepTranslate guildId srcChanId o s m = (s, zeroOutT) := by
  unfold stepTranslate
  rw [hc]
  simp [h1]

theorem sendSeq_true_iff (ok : Nat → Bool) (chunks : List PyStr) :
    ∀ i, (sendSeq ok i chunks).1 = true ↔ ∀ j < chunks.length, ok (i + j) = true := by
  induction chunks with
  | nil => intro i; simp [sendSeq]
  | cons c cs ih =>
    intro i
    unfold sendSeq
    by_cases hi : ok i = true
    · simp only [hi, if_true]
      rw [ih (i + 1)]
      constructor
      · intro h j hj
        cases j with
        | zero => simpa using hi
        | succ k =>
          have := h k (by simpa using hj)
          simpa [Nat.add_assoc, Nat.add_comm 1 k] using this
      · intro h j hj
        have := h (j + 1) (by simpa using hj)
        simpa [Nat.add_assoc, Nat.add_comm 1 j] using this
    · simp only [hi, Bool.false_eq_true, if_false]
      constructor
      · intro h; exact absurd h (by simp)
      · intro h
        have := h 0 (by simp)
        simp at this
        exact absurd this hi

theorem stepForum_dupHistorical_out (o : ForumOracle) (s : RunState) (m : ForumMsg)
    (u : PyStr) (hc : candidateUrl m.content m.embeds = some u) (hh : u ∈ s.historical) :
    (stepForum o s m).2 = zeroOut := by
  by_cases h1 : (statusOf s u).isSome = true
  · rw [stepForum_skip o s m u hc h1]
  · rw [stepForum_dup o s m u hc h1 hh]

theorem stepForum_hist_mem (o : ForumOracle) (s : RunState) (m : ForumMsg)
    (u : PyStr) (hu : u ∈ s.historical) : u ∈ (stepForum o s m).1.historical := by
  rw [stepForum_hist]
  cases (stepForum o s m).2.posted with
  | none => exact hu
  | some w => exact List.mem_cons_of_mem w hu

theorem runForum_dup_zero (evs : List (ForumMsg × ForumOracle)) :
    ∀ (s : RunState) (u : PyStr), u ∈ s.historical →
      ∀ p ∈ ((runForum evs s).2.zip evs),
        candidateUrl p.2.1.content p.2.1.embeds = some u → p.1 = zeroOut := by
  induction evs with
  | nil =>
    intro s u _ p hp
    simp [runForum] at hp
  | cons e rest ih =>
    intro s u hu p hp hcand
    obtain ⟨m, o⟩ := e
    unfold runForum at hp
    by_cases ha : (stepForum o s m).2.aborted = true
    · simp only [ha, if_true] at hp
      have hp' : p = ((stepForum o s m).2, (m, o)) := by simpa [List.zip] using hp
      subst hp'
      exact stepForum_dupHistorical_out o s m u hcand hu
    · simp only [ha, Bool.false_eq_true, if_false] at hp
      rcases List.mem_cons.mp (by simpa [List.zip] using hp) with h | h
      · subst h
        exact stepForum_dupHistorical_out o s m u hcand hu
      · exact ih (stepForum o s m).1 u (stepForum_hist_mem o s m u hu) p h hcand

theorem workOut_zeroOut : workOut zeroOut = false := by
  simp [workOut]

theorem runForum_after_status_zero (evs : List (ForumMsg × ForumOracle)) :
    ∀ (s : RunState) (u : PyStr), (statusOf s u).isSome = true →
      (((runForum evs s).2.zip evs).countP
        (fun p => decide (candidateUrl p.2.1.content p.2.1.embeds = some u) && workOut p.1)) = 0 := by
  induction evs with
  | nil => intro s u _; simp [runForum]
  | cons e rest ih =>
    intro s u hst
    obtain ⟨m, o⟩ := e
    unfold runForum
    by_cases hcand : candidateUrl m.content m.embeds = some u
    · have hstep := stepForum_skip o s m u hcand hst
      rw [hstep]
      have hz : zeroOut.aborted = false := rfl
      simp only [hz, Bool.false_eq_true, if_false]
      rw [List.zip_cons_cons, List.countP_cons]
      simp only [workOut_zeroOut, Bool.and_false, Bool.false_eq_true, if_false]
      rw [Nat.add_zero]
      exact ih s u hst
    · by_cases ha : (stepForum o s m).2.aborted = true
      · simp only [ha, if_true]
        rw [show ([(stepForum o s m).2].zip ((m, o) :: rest)) =
            [((stepForum o s m).2, (m, o))] from rfl]
        rw [List.countP_cons]
        simp [hcand]
      · simp only [ha, Bool.false_eq_true, if_false]
        rw [List.zip_cons_cons, List.countP_cons]
        have hpred : (decide (candidateUrl m.content m.embeds = some u) &&
            workOut (stepForum o s m).2) = false := by
          simp [hcand]
        rw [hpred]
        simp only [Bool.false_eq_true, if_false]
        rw [Nat.add_zero]
        exact ih (stepForum o s m).1 u (stepForum_statusMono o s m u hst)

/-! ## C2: the persisted record is updated only after a fully successful post -/

/-- C2: across a forum run, persisted entries are never removed and a URL
enters `historical_urls` only through a step that posted it; such a step's
`post_successful` implies no chunk send failed and status
`SUMMARIZED_POSTED`, while any failure (thread creation, formatting, or a
chunk send) leaves the record unchanged.  The translate pipeline's
`processed_urls` behaves the same way, and `send_discord_message` reports
success only when every chunk's POST succeeded. -/
theorem processed_record_only_after_success :
    (∀ (evs : List (ForumMsg × ForumOracle)) (s : RunState), ∀ u ∈ s.historical,
       u ∈ (runForum evs s).1.historical)
    ∧ (∀ (evs : List (ForumMsg × ForumOracle)) (s : RunState) (u : PyStr),
       u ∈ (runForum evs s).1.historical →
       u ∈ s.historical ∨ ∃ out ∈ (runForum evs s).2, out.posted = some u)
    ∧ (∀ (o : ForumOracle) (s : RunState) (m : ForumMsg),
       (stepForum o s m).1.historical =
         match (stepForum o s m).2.posted with
         | some u => u :: s.historical
         | none => s.historical)
    ∧ (∀ (o : ForumOracle) (s : RunState) (m : ForumMsg) (u : PyStr),
       (stepForum o s m).2.posted = some u →
       candidateUrl m.content m.embeds = some u ∧
       (stepForum o s m).2.sendFailed = false ∧
       statusOf (stepForum o s m).1 u = some .summarizedPosted)
    ∧ (∀ (guildId srcChanId : PyStr) (o : TransOracle) (s : TransState) (m : TransMsg),
       (stepTranslate guildId srcChanId o s m).1.processed =
         match (stepTranslate guildId srcChanId o s m).2.posted with
         | some u => u :: s.processed
         | none => s.processed)
    ∧ (∀ (ok : Nat → Bool) (chunks : List PyStr) (i : Nat),
       (sendSeq ok i chunks).1 = true ↔ ∀ j < chunks.length, ok (i + j) = true) :=
  ⟨fun evs s => runForum_hist_mono evs s,
   fun evs s => runForum_new_posted evs s,
   stepForum_hist,
   stepForum_posted,
   stepTranslate_processed,
   fun ok chunks i => sendSeq_true_iff ok chunks i⟩

/-- Witness for C2 at a concrete state whose record holds one URL. -/
theorem processed_record_only_after_success_witness :
    (txt "https://a.example/p" ∈ dupInit.historical) ∧
    txt "https://a.example/p" ∈ (runForum [] dupInit).1.historical :=
  ⟨by decide,
   processed_record_only_after_success.1 [] dupInit (txt "https://a.example/p") (by decide)⟩

/-! ## C5: persisted duplicates trigger no external work -/

/-- C5: a URL already in the persisted record at the start of a run causes
zero scrape, generate, send and create-thread calls at every step of the
forum run whose message carries it (membership is checked before any
summarization work); likewise a translate step for an already-processed URL
does nothing at all. -/
theorem duplicate_short_circuit :
    (∀ (evs : List (ForumMsg × ForumOracle)) (s : RunState) (u : PyStr),
       u ∈ s.historical →
       ∀ p ∈ ((runForum evs s).2.zip evs),
         candidateUrl p.2.1.content p.2.1.embeds = some u →
         p.1.scrapes = 0 ∧ p.1.gens = 0 ∧ p.1.sends = 0 ∧ p.1.creates = 0)
    ∧ (∀ (guildId srcChanId : PyStr) (o : TransOracle) (st : TransState) (m : TransMsg)
         (u : PyStr),
       candidateUrl m.content m.embeds = some u → u ∈ st.processed →
       stepTranslate guildId srcChanId o st m = (st, zeroOutT)) := by
  constructor
  · intro evs s u hu p hp hcand
    have := runForum_dup_zero evs s u hu p hp hcand
    rw [this]
    exact ⟨rfl, rfl, rfl, rfl⟩
  · intro guildId srcChanId o st m u hcand hmem
    exact stepTranslate_skip guildId srcChanId o st m u hcand hmem

/-- Witness for C5 at a concrete one-event run whose record already holds
the message's URL. -/
theorem duplicate_short_circuit_witness :
    (txt "https://a.example/p" ∈ dupInit.historical) ∧
    (∀ p ∈ ((runForum dupEvents dupInit).2.zip dupEvents),
       candidateUrl p.2.1.content p.2.1.embeds = some (txt "https://a.example/p") →
       p.1.scrapes = 0 ∧ p.1.gens = 0 ∧ p.1.sends = 0 ∧ p.1.creates = 0) :=
  ⟨by decide,
   duplicate_short_circuit.1 dupEvents dupInit (txt "https://a.example/p") (by decide)⟩

/-! ## C8: at most one processing attempt per URL per run -/

/-- C8: within one forum run, each URL is the subject of at most one step
with any external activity — once a URL has received an in-run status
(including failure statuses), every later occurrence is skipped with zero
scrape/generate/send/create calls. -/
theorem single_attempt_per_url :
    ∀ (evs : List (ForumMsg × ForumOracle)) (s : RunState) (u : PyStr),
      (((runForum evs s).2.zip evs).countP
        (fun p => decide (candidateUrl p.2.1.content p.2.1.embeds = some u) && workOut p.1)) ≤ 1 := by
  intro evs
  induction evs with
  | nil => intro s u; simp [runForum]
  | cons e rest ih =>
    intro s u
    obtain ⟨m, o⟩ := e
    unfold runForum
    by_cases ha : (stepForum o s m).2.aborted = true
    · simp only [ha, if_true]
      rw [show ([(stepForum o s m).2].zip ((m, o) :: rest)) =
          [((stepForum o s m).2, (m, o))] from rfl]
      rw [List.countP_cons]
      split <;> simp
    · simp only [ha, Bool.false_eq_true, if_false]
      rw [List.zip_cons_cons, List.countP_cons]
      by_cases hcand : candidateUrl m.content m.embeds = some u
      · have htail : (((runForum rest (stepForum o s m).1).2.zip rest).countP
            (fun p => decide (candidateUrl p.2.1.content p.2.1.embeds = some u)
              && workOut p.1)) = 0 :=
          runForum_after_status_zero rest (stepForum o s m).1 u
            (stepForum_sets_status o s m u hcand)
        rw [htail]
        split <;> simp
      · have hpred : (decide (candidateUrl m.content m.embeds = some u) &&
            workOut (stepForum o s m).2) = false := by
          simp [hcand]
        rw [hpred]
        simp only [Bool.false_eq_true, if_false]
        rw [Nat.add_zero]
        exact ih (stepForum o s m).1 u
